import Mathlib

/-
Verification of the defi-risk-engine repository's pure risk core.

The TypeScript source (src/domain/risk.ts, src/workflows/analyse.ts,
src/services/PriceFeed.ts) is shallowly embedded here. JavaScript
numbers are modelled as rationals (ℚ); `Math.sqrt`, which is only used
for volatility-derived fields that no verified claim depends on, is
abstracted as an explicit function parameter `sqrtQ`. Human-readable
alert `message` strings (pure presentation, built from the numeric
fields that are retained) are elided from the `RiskAlert` model.
-/

namespace DefiRisk

-- ─── Data model (src/domain/models.ts) ─────────────────────────

structure TokenHolding where
  symbol : String
  coinGeckoId : String
  amount : ℚ
deriving DecidableEq, Repr

structure Portfolio where
  name : String
  holdings : List TokenHolding
deriving DecidableEq, Repr

structure TokenPrice where
  coinGeckoId : String
  priceUsd : ℚ
  change24h : ℚ
deriving DecidableEq, Repr

structure HistoricalPrices where
  coinGeckoId : String
  dailyPrices : List ℚ
deriving DecidableEq, Repr

structure HoldingValuation where
  symbol : String
  coinGeckoId : String
  amount : ℚ
  valueUsd : ℚ
  weight : ℚ
  price : ℚ
  change24h : ℚ
deriving DecidableEq, Repr

structure PortfolioValuation where
  totalValueUsd : ℚ
  holdings : List HoldingValuation
deriving DecidableEq, Repr

structure RiskMetrics where
  valueAtRisk95 : ℚ
  valueAtRisk99 : ℚ
  volatilityAnnualised : ℚ
  sharpeRatio : ℚ
  concentrationHHI : ℚ
  maxDrawdown : ℚ
deriving DecidableEq, Repr

inductive AlertLevel where
  | info
  | warning
  | critical
deriving DecidableEq, Repr

/-- Alert record from models.ts; the human-readable `message` string is
presentation only and is elided from the embedding. -/
structure RiskAlert where
  level : AlertLevel
  metric : String
  value : ℚ
  threshold : ℚ
deriving DecidableEq, Repr

/-- AnalysisResult from models.ts; the timestamp and alert list play no
role in the claims about the degraded-risk selection, valuation and
risk are retained. -/
structure AnalysisResult where
  valuation : PortfolioValuation
  risk : RiskMetrics
deriving DecidableEq, Repr

-- ─── Constants (src/domain/risk.ts) ────────────────────────────

def Z_95 : ℚ := 1.645

def Z_99 : ℚ := 2.326

def TRADING_DAYS_PER_YEAR : ℚ := 365

def RISK_FREE_RATE : ℚ := 0.045

-- ─── Portfolio valuation (risk.ts, valuatePortfolio) ───────────

/-- JS `new Map(list)` lookup: on duplicate keys the later entry wins,
so a lookup returns the last matching element. -/
def priceMapGet (prices : List TokenPrice) (id : String) : Option TokenPrice :=
  prices.reverse.find? (fun p => p.coinGeckoId == id)

/-- Body of the `holdings.map` in valuatePortfolio: price the holding
(missing id → price 0), weight initialised to 0. -/
def valueHolding (prices : List TokenPrice) (h : TokenHolding) : HoldingValuation :=
  let price := priceMapGet prices h.coinGeckoId
  let priceUsd := (price.map (fun p => p.priceUsd)).getD 0
  let valueUsd := h.amount * priceUsd
  { symbol := h.symbol
    coinGeckoId := h.coinGeckoId
    amount := h.amount
    valueUsd := valueUsd
    weight := 0
    price := priceUsd
    change24h := (price.map (fun p => p.change24h)).getD 0 }

/-- Body of the `valued.map` in valuatePortfolio: set the weight field. -/
def setWeight (totalValueUsd : ℚ) (h : HoldingValuation) : HoldingValuation :=
  { h with weight := if 0 < totalValueUsd then h.valueUsd / totalValueUsd else 0 }

def valuatePortfolio (holdings : List TokenHolding) (prices : List TokenPrice) :
    PortfolioValuation :=
  let valued := holdings.map (valueHolding prices)
  let totalValueUsd := valued.foldl (fun sum h => sum + h.valueUsd) 0
  let withWeights := valued.map (setWeight totalValueUsd)
  { totalValueUsd := totalValueUsd, holdings := withWeights }

-- ─── Generic list helpers ──────────────────────────────────────

lemma foldl_add_map {α : Type} (f : α → ℚ) :
    ∀ (l : List α) (init : ℚ),
      l.foldl (fun s x => s + f x) init = init + (l.map f).sum := by
  intro l
  induction l with
  | nil => intro init; simp
  | cons x xs ih =>
      intro init
      simp only [List.foldl_cons, List.map_cons, List.sum_cons, ih]
      ring

lemma sum_map_div {α : Type} (f : α → ℚ) (c : ℚ) :
    ∀ l : List α, (l.map (fun x => f x / c)).sum = (l.map f).sum / c := by
  intro l
  induction l with
  | nil => simp
  | cons x xs ih => simp [ih, add_div]

-- ─── C1 supporting lemmas ──────────────────────────────────────

lemma setWeight_weight (T : ℚ) (h : HoldingValuation) :
    (setWeight T h).weight = if 0 < T then h.valueUsd / T else 0 := rfl

lemma setWeight_valueUsd (T : ℚ) (h : HoldingValuation) :
    (setWeight T h).valueUsd = h.valueUsd := rfl

lemma valuatePortfolio_holdings (hs : List TokenHolding) (ps : List TokenPrice) :
    (valuatePortfolio hs ps).holdings
      = (hs.map (valueHolding ps)).map
          (setWeight ((hs.map (valueHolding ps)).foldl (fun sum h => sum + h.valueUsd) 0)) := rfl

lemma valuatePortfolio_total (hs : List TokenHolding) (ps : List TokenPrice) :
    (valuatePortfolio hs ps).totalValueUsd
      = ((hs.map (valueHolding ps)).map (fun h => h.valueUsd)).sum := by
  show (hs.map (valueHolding ps)).foldl (fun sum h => sum + h.valueUsd) 0 = _
  rw [foldl_add_map (fun h : HoldingValuation => h.valueUsd), zero_add]

lemma valuatePortfolio_weight_mem (hs : List TokenHolding) (ps : List TokenPrice) :
    ∀ a ∈ (valuatePortfolio hs ps).holdings,
      a.weight = if 0 < (valuatePortfolio hs ps).totalValueUsd
        then a.valueUsd / (valuatePortfolio hs ps).totalValueUsd else 0 := by
  intro a ha
  rw [valuatePortfolio_holdings] at ha
  rcases List.mem_map.1 ha with ⟨b, _, rfl⟩
  rw [setWeight_weight, setWeight_valueUsd]
  rfl

/-- Helper: with positive total, the weights of a valuation sum to 1 exactly. -/
lemma valuatePortfolio_weights_sum (hs : List TokenHolding) (ps : List TokenPrice)
    (hT : 0 < (valuatePortfolio hs ps).totalValueUsd) :
    ((valuatePortfolio hs ps).holdings.map (fun h => h.weight)).sum = 1 := by
  have hmem := valuatePortfolio_weight_mem hs ps
  have hmap : (valuatePortfolio hs ps).holdings.map (fun h => h.weight)
      = (valuatePortfolio hs ps).holdings.map
          (fun h => h.valueUsd / (valuatePortfolio hs ps).totalValueUsd) := by
    apply List.map_congr_left
    intro a ha
    rw [hmem a ha, if_pos hT]
  rw [hmap, sum_map_div]
  have hval : ((valuatePortfolio hs ps).holdings.map (fun h => h.valueUsd)).sum
      = (valuatePortfolio hs ps).totalValueUsd := by
    rw [valuatePortfolio_holdings, valuatePortfolio_total, List.map_map]
    congr 1
  rw [hval, div_self (ne_of_gt hT)]

/-- C1: valuatePortfolio keeps the holdings in the input order and number
(symbol, coinGeckoId and amount are preserved index-wise); when the total
portfolio value is positive each weight equals valueUsd divided by the
total and the weights sum to 1 within 1e-6 (exactly 1 over ℚ); when the
total value is 0 every weight is 0. -/
theorem valuatePortfolio_weight_invariant (hs : List TokenHolding) (ps : List TokenPrice) :
    ((valuatePortfolio hs ps).holdings.length = hs.length ∧
      (valuatePortfolio hs ps).holdings.map (fun h => h.symbol)
        = hs.map (fun h => h.symbol) ∧
      (valuatePortfolio hs ps).holdings.map (fun h => h.coinGeckoId)
        = hs.map (fun h => h.coinGeckoId) ∧
      (valuatePortfolio hs ps).holdings.map (fun h => h.amount)
        = hs.map (fun h => h.amount)) ∧
    (0 < (valuatePortfolio hs ps).totalValueUsd →
      (∀ a ∈ (valuatePortfolio hs ps).holdings,
          a.weight = a.valueUsd / (valuatePortfolio hs ps).totalValueUsd) ∧
      |((valuatePortfolio hs ps).holdings.map (fun h => h.weight)).sum - 1|
        ≤ 1 / 1000000) ∧
    ((valuatePortfolio hs ps).totalValueUsd = 0 →
      ∀ a ∈ (valuatePortfolio hs ps).holdings, a.weight = 0) := by
  refine ⟨⟨?_, ?_, ?_, ?_⟩, ?_, ?_⟩
  · rw [valuatePortfolio_holdings]; simp
  · rw [valuatePortfolio_holdings, List.map_map, List.map_map]; rfl
  · rw [valuatePortfolio_holdings, List.map_map, List.map_map]; rfl
  · rw [valuatePortfolio_holdings, List.map_map, List.map_map]; rfl
  · intro hT
    refine ⟨?_, ?_⟩
    · intro a ha
      rw [valuatePortfolio_weight_mem hs ps a ha, if_pos hT]
    · rw [valuatePortfolio_weights_sum hs ps hT]
      norm_num
  · intro hT a ha
    rw [valuatePortfolio_weight_mem hs ps a ha, hT]
    norm_num

/-- C1 witness: the spec's own scenario — holdings BTC 1.0 and ETH 10.0 at
prices 42000 and 2200 give a positive total of 64000 and weights summing
to 1 (within 1e-6), BTC weight = 42000/64000. -/
theorem valuatePortfolio_weight_invariant_witness :
    0 < (valuatePortfolio
          [⟨"BTC", "bitcoin", 1⟩, ⟨"ETH", "ethereum", 10⟩]
          [⟨"bitcoin", 42000, 0⟩, ⟨"ethereum", 2200, 0⟩]).totalValueUsd ∧
    (∀ a ∈ (valuatePortfolio
          [⟨"BTC", "bitcoin", 1⟩, ⟨"ETH", "ethereum", 10⟩]
          [⟨"bitcoin", 42000, 0⟩, ⟨"ethereum", 2200, 0⟩]).holdings,
        a.weight = a.valueUsd / (valuatePortfolio
          [⟨"BTC", "bitcoin", 1⟩, ⟨"ETH", "ethereum", 10⟩]
          [⟨"bitcoin", 42000, 0⟩, ⟨"ethereum", 2200, 0⟩]).totalValueUsd) ∧
    |((valuatePortfolio
          [⟨"BTC", "bitcoin", 1⟩, ⟨"ETH", "ethereum", 10⟩]
          [⟨"bitcoin", 42000, 0⟩, ⟨"ethereum", 2200, 0⟩]).holdings.map
        (fun h => h.weight)).sum - 1| ≤ 1 / 1000000 := by
  have hpos : 0 < (valuatePortfolio
      [⟨"BTC", "bitcoin", 1⟩, ⟨"ETH", "ethereum", 10⟩]
      [⟨"bitcoin", 42000, 0⟩, ⟨"ethereum", 2200, 0⟩]).totalValueUsd := by
    simp [valuatePortfolio, valueHolding, priceMapGet]
    norm_num
  exact ⟨hpos,
    (valuatePortfolio_weight_invariant
      [⟨"BTC", "bitcoin", 1⟩, ⟨"ETH", "ethereum", 10⟩]
      [⟨"bitcoin", 42000, 0⟩, ⟨"ethereum", 2200, 0⟩]).2.1 hpos⟩

-- ─── Return series (risk.ts, calculateDailyReturns) ────────────

/-- The loop `for i in 1..len-1: if prices[i-1] > 0 push (prices[i] -
prices[i-1]) / prices[i-1]`, expressed as recursion over adjacent pairs.
Total by construction, so it never throws. -/
def calculateDailyReturns : List ℚ → List ℚ
  | p0 :: p1 :: rest =>
      (if 0 < p0 then [(p1 - p0) / p0] else []) ++ calculateDailyReturns (p1 :: rest)
  | _ => []

/-- Spec reading of dailyReturns: for each index i from 1 to len-1 in
order, emit (prices[i] - prices[i-1]) / prices[i-1] exactly when
prices[i-1] > 0 and nothing otherwise. -/
def dailyReturnsSpec (prices : List ℚ) : List ℚ :=
  (List.range (prices.length - 1)).filterMap (fun j =>
    if 0 < prices.getD j 0
      then some ((prices.getD (j + 1) 0 - prices.getD j 0) / prices.getD j 0)
      else none)

lemma dailyReturnsSpec_nil : dailyReturnsSpec [] = [] := rfl

lemma dailyReturnsSpec_single (p : ℚ) : dailyReturnsSpec [p] = [] := rfl

lemma calculateDailyReturns_short (prices : List ℚ) (hlen : prices.length ≤ 1) :
    calculateDailyReturns prices = [] := by
  match prices, hlen with
  | [], _ => rfl
  | [p], _ => rfl

lemma dailyReturnsSpec_cons (p0 p1 : ℚ) (rest : List ℚ) :
    dailyReturnsSpec (p0 :: p1 :: rest)
      = (if 0 < p0 then [(p1 - p0) / p0] else []) ++ dailyReturnsSpec (p1 :: rest) := by
  unfold dailyReturnsSpec
  have htail : ∀ j ∈ List.range ((p1 :: rest).length - 1),
      ((fun j =>
          if 0 < (p0 :: p1 :: rest).getD j 0
            then some (((p0 :: p1 :: rest).getD (j + 1) 0 - (p0 :: p1 :: rest).getD j 0)
              / (p0 :: p1 :: rest).getD j 0)
            else none) ∘ Nat.succ) j
        = (fun j =>
          if 0 < (p1 :: rest).getD j 0
            then some (((p1 :: rest).getD (j + 1) 0 - (p1 :: rest).getD j 0)
              / (p1 :: rest).getD j 0)
            else none) j := by
    intro j _
    simp only [Function.comp_apply, Nat.succ_eq_add_one, List.getD_cons_succ]
  by_cases h0 : 0 < p0
  · simp only [List.length_cons, Nat.add_sub_cancel, List.range_succ_eq_map,
      List.filterMap_cons, List.getD_cons_zero, List.getD_cons_succ,
      if_pos h0, List.filterMap_map, List.singleton_append]
    exact congrArg _ (List.filterMap_congr htail)
  · simp only [List.length_cons, Nat.add_sub_cancel, List.range_succ_eq_map,
      List.filterMap_cons, List.getD_cons_zero, List.getD_cons_succ,
      if_neg h0, List.filterMap_map, List.nil_append]
    exact List.filterMap_congr htail

/-- C2: calculateDailyReturns agrees with the index-wise specification
(emit (prices[i]-prices[i-1])/prices[i-1] at each i in 1..len-1 with a
positive prior price, emit nothing at an i whose prior price is ≤ 0),
and inputs of length 0 or 1 give the empty list. The Lean embedding is
a total function, matching "never throws". -/
theorem calculateDailyReturns_spec (prices : List ℚ) :
    calculateDailyReturns prices = dailyReturnsSpec prices ∧
    (prices.length ≤ 1 → calculateDailyReturns prices = []) := by
  constructor
  · induction prices with
    | nil => rfl
    | cons p0 tail ih =>
        cases tail with
        | nil => rfl
        | cons p1 rest =>
            rw [dailyReturnsSpec_cons, calculateDailyReturns]
            rw [ih]
  · exact calculateDailyReturns_short prices

/-- C2 witness: a concrete series with a non-positive interior price —
[100, 110, 0, 50] yields [0.1] (index 2 is skipped because its prior
price is 0, index 3 is skipped because computing it would divide by the
prior 0 price), matching the spec reading; and the singleton [5] yields []. -/
theorem calculateDailyReturns_spec_witness :
    calculateDailyReturns [100, 110, 0, 50] = dailyReturnsSpec [100, 110, 0, 50] ∧
    calculateDailyReturns [(5 : ℚ)] = [] :=
  ⟨(calculateDailyReturns_spec [100, 110, 0, 50]).1,
    (calculateDailyReturns_spec [(5 : ℚ)]).2 (by norm_num)⟩

-- ─── C7: length / all-equal properties of dailyReturns ─────────

/-- C7 counterexample: the series [0, 1] has length 2, but
calculateDailyReturns returns [] (the prior price 0 is skipped), of
length 0 ≠ 2 − 1. -/
theorem calculateDailyReturns_length_counterexample :
    2 ≤ ([0, 1] : List ℚ).length ∧
    (calculateDailyReturns [0, 1]).length ≠ ([0, 1] : List ℚ).length - 1 := by
  constructor
  · norm_num
  · show (calculateDailyReturns [0, 1]).length ≠ 1
    rw [calculateDailyReturns]
    norm_num [calculateDailyReturns]

/-- C7 (amended): for a series in which every price except possibly the
last is positive, calculateDailyReturns has length n − 1 (so in
particular exactly n − 1 for n ≥ 2); length 0 or 1 gives []; and for an
all-equal series every emitted return is 0. -/
theorem calculateDailyReturns_length (prices : List ℚ) :
    ((∀ j, j + 1 < prices.length → 0 < prices.getD j 0) →
      (calculateDailyReturns prices).length = prices.length - 1) ∧
    (prices.length ≤ 1 → calculateDailyReturns prices = []) ∧
    ((∀ x ∈ prices, ∀ y ∈ prices, x = y) →
      ∀ r ∈ calculateDailyReturns prices, r = 0) := by
  refine ⟨?_, calculateDailyReturns_short prices, ?_⟩
  · induction prices with
    | nil => intro _; rfl
    | cons p0 tail ih =>
        cases tail with
        | nil => intro _; rfl
        | cons p1 rest =>
            intro hpos
            have h0 : 0 < p0 := by
              have := hpos 0 (by simp)
              simpa using this
            rw [calculateDailyReturns, if_pos h0]
            have htail : ∀ j, j + 1 < (p1 :: rest).length → 0 < (p1 :: rest).getD j 0 := by
              intro j hj
              have := hpos (j + 1) (by simpa using hj)
              simpa using this
            simp only [List.singleton_append, List.length_cons, ih htail]
            simp
  · induction prices with
    | nil => intro _ r hr; simp [calculateDailyReturns] at hr
    | cons p0 tail ih =>
        cases tail with
        | nil => intro _ r hr; simp [calculateDailyReturns] at hr
        | cons p1 rest =>
            intro heq r hr
            rw [calculateDailyReturns] at hr
            rcases List.mem_append.1 hr with hr | hr
            · have hp : p1 = p0 := heq p1 (by simp) p0 (by simp)
              by_cases h0 : 0 < p0
              · rw [if_pos h0] at hr
                simp only [List.mem_singleton] at hr
                rw [hr, hp, sub_self, zero_div]
              · rw [if_neg h0] at hr
                simp at hr
            · exact ih (fun x hx y hy => heq x (List.mem_cons_of_mem _ hx)
                y (List.mem_cons_of_mem _ hy)) r hr

/-- C7 witness: the all-equal positive series [7, 7, 7] has length 3,
its returns have length 2 and every emitted return is 0. -/
theorem calculateDailyReturns_length_witness :
    (calculateDailyReturns [7, 7, 7]).length = ([7, 7, 7] : List ℚ).length - 1 ∧
    ∀ r ∈ calculateDailyReturns [7, 7, 7], r = 0 :=
  ⟨(calculateDailyReturns_length [7, 7, 7]).1 (by
      intro j hj
      simp only [List.length_cons, List.length_nil] at hj
      have hj2 : j = 0 ∨ j = 1 := by omega
      rcases hj2 with rfl | rfl <;> norm_num),
    (calculateDailyReturns_length [7, 7, 7]).2.2 (by
      intro x hx y hy
      simp only [List.mem_cons, List.not_mem_nil, or_false] at hx hy
      rcases hx with rfl | rfl | rfl <;> rcases hy with rfl | rfl | rfl <;> rfl)⟩

-- ─── Statistical helpers (risk.ts) ─────────────────────────────

def mean (values : List ℚ) : ℚ :=
  if values.length = 0 then 0
  else values.foldl (fun sum v => sum + v) 0 / (values.length : ℚ)

/-- standardDeviation from risk.ts; `Math.sqrt` is abstracted as the
explicit parameter `sqrtQ`, which no verified claim depends on. -/
def standardDeviation (sqrtQ : ℚ → ℚ) (values : List ℚ) : ℚ :=
  if values.length < 2 then 0
  else
    let avg := mean values
    let squaredDiffs := values.map (fun v => (v - avg) ^ 2)
    sqrtQ (squaredDiffs.foldl (fun sum v => sum + v) 0 / ((values.length : ℚ) - 1))

/-- One iteration of the calculateMaxDrawdown loop over the state
(cumulative, peak, maxDD): `cumulative *= 1 + r; if cumulative > peak
then peak = cumulative; drawdown = (peak - cumulative) / peak; if
drawdown > maxDD then maxDD = drawdown`. -/
def drawdownStep (st : ℚ × ℚ × ℚ) (r : ℚ) : ℚ × ℚ × ℚ :=
  let cumulative := st.1 * (1 + r)
  let peak := max st.2.1 cumulative
  let drawdown := (peak - cumulative) / peak
  (cumulative, peak, max st.2.2 drawdown)

/-- calculateMaxDrawdown from risk.ts: walk the returns with cumulative
= peak = 1 and maxDD = 0 (the early return for [] coincides with the
fold over []). -/
def calculateMaxDrawdown (returns : List ℚ) : ℚ :=
  (returns.foldl drawdownStep (1, 1, 0)).2.2

-- ─── Risk metrics (risk.ts, calculateRiskMetrics) ──────────────

def calculateRiskMetrics (sqrtQ : ℚ → ℚ) (portfolioValue : ℚ)
    (portfolioReturns : List ℚ) (weights : List HoldingValuation) : RiskMetrics :=
  let dailyVol := standardDeviation sqrtQ portfolioReturns
  let annualisedVol := dailyVol * sqrtQ TRADING_DAYS_PER_YEAR
  let var95 := portfolioValue * Z_95 * dailyVol
  let var99 := portfolioValue * Z_99 * dailyVol
  let dailyMeanReturn := mean portfolioReturns
  let annualisedReturn := dailyMeanReturn * TRADING_DAYS_PER_YEAR
  let sharpe :=
    if 0 < dailyVol then (annualisedReturn - RISK_FREE_RATE) / annualisedVol else 0
  let hhi := weights.foldl (fun sum w => sum + w.weight ^ 2) 0
  let maxDrawdown := calculateMaxDrawdown portfolioReturns
  { valueAtRisk95 := var95
    valueAtRisk99 := var99
    volatilityAnnualised := annualisedVol
    sharpeRatio := sharpe
    concentrationHHI := hhi
    maxDrawdown := maxDrawdown }

-- ─── C6: max drawdown bounds ───────────────────────────────────

lemma drawdown_foldl_nonneg :
    ∀ (l : List ℚ) (st : ℚ × ℚ × ℚ), 0 ≤ st.2.2 → 0 ≤ (l.foldl drawdownStep st).2.2 := by
  intro l
  induction l with
  | nil => intro st h; exact h
  | cons r rest ih =>
      intro st h
      exact ih (drawdownStep st r) (le_trans h (le_max_left _ _))

lemma drawdown_foldl_le_one :
    ∀ (l : List ℚ) (st : ℚ × ℚ × ℚ), (∀ r ∈ l, -1 ≤ r) →
      0 ≤ st.1 → 1 ≤ st.2.1 → st.2.2 ≤ 1 → (l.foldl drawdownStep st).2.2 ≤ 1 := by
  intro l
  induction l with
  | nil => intro st _ _ _ h3; exact h3
  | cons r rest ih =>
      intro st hmem h1 h2 h3
      have hr : -1 ≤ r := hmem r (List.mem_cons_self _ _)
      have hcum : 0 ≤ st.1 * (1 + r) := mul_nonneg h1 (by linarith)
      have hpeak : 1 ≤ max st.2.1 (st.1 * (1 + r)) := le_trans h2 (le_max_left _ _)
      have hpeakpos : (0 : ℚ) < max st.2.1 (st.1 * (1 + r)) := lt_of_lt_of_le one_pos hpeak
      have hdd : (max st.2.1 (st.1 * (1 + r)) - st.1 * (1 + r))
          / max st.2.1 (st.1 * (1 + r)) ≤ 1 := by
        rw [div_le_one hpeakpos]
        linarith
      exact ih (drawdownStep st r) (fun x hx => hmem x (List.mem_cons_of_mem _ hx))
        hcum hpeak (max_le h3 hdd)

/-- C6 counterexample: for the return series [-2] (a single-period loss
of 200%), the maxDrawdown field of calculateRiskMetrics is 2, outside
[0, 1]: a return below -1 makes the cumulative value negative while the
peak stays at 1. -/
theorem maxDrawdown_counterexample :
    (calculateRiskMetrics (fun q => q) 1 [-2] []).maxDrawdown = 2 ∧
    ¬ (calculateRiskMetrics (fun q => q) 1 [-2] []).maxDrawdown ≤ 1 := by
  have h : (calculateRiskMetrics (fun q => q) 1 [-2] []).maxDrawdown = 2 := by
    show (calculateMaxDrawdown [-2]) = 2
    show (drawdownStep (1, 1, 0) (-2)).2.2 = 2
    norm_num [drawdownStep, max_def]
  exact ⟨h, by rw [h]; norm_num⟩

/-- C6 (amended): the maxDrawdown field computed by calculateRiskMetrics
(which is exactly calculateMaxDrawdown of the return series) is always
≥ 0, and lies in [0, 1] provided every return in the series is ≥ -1
(no single-period loss exceeding 100%). -/
theorem maxDrawdown_bounds (returns : List ℚ) :
    (∀ sqrtQ portfolioValue weights,
      (calculateRiskMetrics sqrtQ portfolioValue returns weights).maxDrawdown
        = calculateMaxDrawdown returns) ∧
    0 ≤ calculateMaxDrawdown returns ∧
    ((∀ r ∈ returns, -1 ≤ r) → calculateMaxDrawdown returns ≤ 1) :=
  ⟨fun _ _ _ => rfl,
    drawdown_foldl_nonneg returns (1, 1, 0) le_rfl,
    fun hmem => drawdown_foldl_le_one returns (1, 1, 0) hmem zero_le_one le_rfl zero_le_one⟩

/-- C6 witness: for the series [1/2, -1/2], every return is ≥ -1 and the
max drawdown lies in [0, 1]. -/
theorem maxDrawdown_bounds_witness :
    0 ≤ calculateMaxDrawdown [1/2, -1/2] ∧ calculateMaxDrawdown [1/2, -1/2] ≤ 1 :=
  ⟨(maxDrawdown_bounds [1/2, -1/2]).2.1,
    (maxDrawdown_bounds [1/2, -1/2]).2.2 (by
      intro r hr
      simp only [List.mem_cons, List.not_mem_nil, or_false] at hr
      rcases hr with rfl | rfl <;> norm_num)⟩

-- ─── Alert generation (risk.ts, generateAlerts) ────────────────

structure RiskThresholds where
  varPctWarning : ℚ
  varPctCritical : ℚ
  volWarning : ℚ
  volCritical : ℚ
  hhiWarning : ℚ
  hhiCritical : ℚ
  drawdownCritical : ℚ
deriving DecidableEq, Repr

def DEFAULT_THRESHOLDS : RiskThresholds :=
  { varPctWarning := 0.03
    varPctCritical := 0.05
    volWarning := 0.6
    volCritical := 0.8
    hhiWarning := 0.35
    hhiCritical := 0.5
    drawdownCritical := 0.15 }

/-- The Value-at-Risk block of generateAlerts: critical checked first,
else warning, else nothing. -/
def varAlerts (varPct : ℚ) (thresholds : RiskThresholds) : List RiskAlert :=
  if thresholds.varPctCritical < varPct then
    [{ level := .critical, metric := "VaR (95%)", value := varPct,
       threshold := thresholds.varPctCritical }]
  else if thresholds.varPctWarning < varPct then
    [{ level := .warning, metric := "VaR (95%)", value := varPct,
       threshold := thresholds.varPctWarning }]
  else []

/-- The volatility block of generateAlerts. -/
def volAlerts (vol : ℚ) (thresholds : RiskThresholds) : List RiskAlert :=
  if thresholds.volCritical < vol then
    [{ level := .critical, metric := "Volatility", value := vol,
       threshold := thresholds.volCritical }]
  else if thresholds.volWarning < vol then
    [{ level := .warning, metric := "Volatility", value := vol,
       threshold := thresholds.volWarning }]
  else []

/-- The concentration block of generateAlerts. -/
def hhiAlerts (hhi : ℚ) (thresholds : RiskThresholds) : List RiskAlert :=
  if thresholds.hhiCritical < hhi then
    [{ level := .critical, metric := "Concentration", value := hhi,
       threshold := thresholds.hhiCritical }]
  else if thresholds.hhiWarning < hhi then
    [{ level := .warning, metric := "Concentration", value := hhi,
       threshold := thresholds.hhiWarning }]
  else []

/-- The drawdown block of generateAlerts (critical only). -/
def ddAlerts (dd : ℚ) (thresholds : RiskThresholds) : List RiskAlert :=
  if thresholds.drawdownCritical < dd then
    [{ level := .critical, metric := "Max Drawdown", value := dd,
       threshold := thresholds.drawdownCritical }]
  else []

def generateAlerts (valuation : PortfolioValuation) (risk : RiskMetrics)
    (thresholds : RiskThresholds) : List RiskAlert :=
  let totalValue := valuation.totalValueUsd
  if totalValue = 0 then []
  else
    varAlerts (risk.valueAtRisk95 / totalValue) thresholds
      ++ volAlerts risk.volatilityAnnualised thresholds
      ++ hhiAlerts risk.concentrationHHI thresholds
      ++ ddAlerts risk.maxDrawdown thresholds

-- ─── C4 / C5 supporting lemmas ─────────────────────────────────

lemma varAlerts_metric (x : ℚ) (t : RiskThresholds) :
    ∀ a ∈ varAlerts x t, a.metric = "VaR (95%)" := by
  unfold varAlerts; split_ifs <;> simp

lemma volAlerts_metric (x : ℚ) (t : RiskThresholds) :
    ∀ a ∈ volAlerts x t, a.metric = "Volatility" := by
  unfold volAlerts; split_ifs <;> simp

lemma hhiAlerts_metric (x : ℚ) (t : RiskThresholds) :
    ∀ a ∈ hhiAlerts x t, a.metric = "Concentration" := by
  unfold hhiAlerts; split_ifs <;> simp

lemma ddAlerts_metric (x : ℚ) (t : RiskThresholds) :
    ∀ a ∈ ddAlerts x t, a.metric = "Max Drawdown" := by
  unfold ddAlerts; split_ifs <;> simp

lemma varAlerts_len (x : ℚ) (t : RiskThresholds) : (varAlerts x t).length ≤ 1 := by
  unfold varAlerts; split_ifs <;> simp

lemma volAlerts_len (x : ℚ) (t : RiskThresholds) : (volAlerts x t).length ≤ 1 := by
  unfold volAlerts; split_ifs <;> simp

lemma hhiAlerts_len (x : ℚ) (t : RiskThresholds) : (hhiAlerts x t).length ≤ 1 := by
  unfold hhiAlerts; split_ifs <;> simp

lemma ddAlerts_len (x : ℚ) (t : RiskThresholds) : (ddAlerts x t).length ≤ 1 := by
  unfold ddAlerts; split_ifs <;> simp

lemma filter_metric_nil {l : List RiskAlert} {n : String} (m : String)
    (hl : ∀ a ∈ l, a.metric = n) (hne : m ≠ n) :
    l.filter (fun a => a.metric == m) = [] := by
  rw [List.filter_eq_nil_iff]
  intro a ha
  rw [hl a ha]
  simp [Ne.symm hne]

lemma filter_metric_self {l : List RiskAlert} {n : String}
    (hl : ∀ a ∈ l, a.metric = n) :
    l.filter (fun a => a.metric == n) = l := by
  rw [List.filter_eq_self]
  intro a ha
  rw [hl a ha]
  simp

/-- C4: generateAlerts emits at most one alert per metric, and for each
of the VaR, volatility and concentration metrics the emitted sublist is
exactly: the critical alert when the critical threshold is breached
(checked first), otherwise the warning alert when the warning threshold
is breached, otherwise nothing — never both levels in one call. -/
theorem generateAlerts_one_per_metric (v : PortfolioValuation) (r : RiskMetrics)
    (t : RiskThresholds) :
    (∀ m : String,
      ((generateAlerts v r t).filter (fun a => a.metric == m)).length ≤ 1) ∧
    ((generateAlerts v r t).filter (fun a => a.metric == "VaR (95%)")
      = if v.totalValueUsd = 0 then []
        else if t.varPctCritical < r.valueAtRisk95 / v.totalValueUsd then
          [{ level := .critical, metric := "VaR (95%)",
             value := r.valueAtRisk95 / v.totalValueUsd, threshold := t.varPctCritical }]
        else if t.varPctWarning < r.valueAtRisk95 / v.totalValueUsd then
          [{ level := .warning, metric := "VaR (95%)",
             value := r.valueAtRisk95 / v.totalValueUsd, threshold := t.varPctWarning }]
        else []) ∧
    ((generateAlerts v r t).filter (fun a => a.metric == "Volatility")
      = if v.totalValueUsd = 0 then []
        else if t.volCritical < r.volatilityAnnualised then
          [{ level := .critical, metric := "Volatility",
             value := r.volatilityAnnualised, threshold := t.volCritical }]
        else if t.volWarning < r.volatilityAnnualised then
          [{ level := .warning, metric := "Volatility",
             value := r.volatilityAnnualised, threshold := t.volWarning }]
        else []) ∧
    ((generateAlerts v r t).filter (fun a => a.metric == "Concentration")
      = if v.totalValueUsd = 0 then []
        else if t.hhiCritical < r.concentrationHHI then
          [{ level := .critical, metric := "Concentration",
             value := r.concentrationHHI, threshold := t.hhiCritical }]
        else if t.hhiWarning < r.concentrationHHI then
          [{ level := .warning, metric := "Concentration",
             value := r.concentrationHHI, threshold := t.hhiWarning }]
        else []) := by
  by_cases h0 : v.totalValueUsd = 0
  · refine ⟨?_, ?_, ?_, ?_⟩ <;> simp [generateAlerts, h0]
  refine ⟨?_, ?_, ?_, ?_⟩
  · intro m
    simp only [generateAlerts, if_neg h0, List.filter_append, List.length_append]
    by_cases h1 : m = "VaR (95%)"
    · subst h1
      rw [filter_metric_nil _ (volAlerts_metric _ t) (by decide),
        filter_metric_nil _ (hhiAlerts_metric _ t) (by decide),
        filter_metric_nil _ (ddAlerts_metric _ t) (by decide)]
      simpa using le_trans (List.length_filter_le _ _) (varAlerts_len _ t)
    by_cases h2 : m = "Volatility"
    · subst h2
      rw [filter_metric_nil _ (varAlerts_metric _ t) (by decide),
        filter_metric_nil _ (hhiAlerts_metric _ t) (by decide),
        filter_metric_nil _ (ddAlerts_metric _ t) (by decide)]
      simpa using le_trans (List.length_filter_le _ _) (volAlerts_len _ t)
    by_cases h3 : m = "Concentration"
    · subst h3
      rw [filter_metric_nil _ (varAlerts_metric _ t) (by decide),
        filter_metric_nil _ (volAlerts_metric _ t) (by decide),
        filter_metric_nil _ (ddAlerts_metric _ t) (by decide)]
      simpa using le_trans (List.length_filter_le _ _) (hhiAlerts_len _ t)
    by_cases h4 : m = "Max Drawdown"
    · subst h4
      rw [filter_metric_nil _ (varAlerts_metric _ t) (by decide),
        filter_metric_nil _ (volAlerts_metric _ t) (by decide),
        filter_metric_nil _ (hhiAlerts_metric _ t) (by decide)]
      simpa using le_trans (List.length_filter_le _ _) (ddAlerts_len _ t)
    · rw [filter_metric_nil _ (varAlerts_metric _ t) h1,
        filter_metric_nil _ (volAlerts_metric _ t) h2,
        filter_metric_nil _ (hhiAlerts_metric _ t) h3,
        filter_metric_nil _ (ddAlerts_metric _ t) h4]
      simp
  · simp only [generateAlerts, if_neg h0, List.filter_append]
    rw [filter_metric_self (varAlerts_metric _ t),
      filter_metric_nil _ (volAlerts_metric _ t) (by decide),
      filter_metric_nil _ (hhiAlerts_metric _ t) (by decide),
      filter_metric_nil _ (ddAlerts_metric _ t) (by decide)]
    simp only [List.append_nil]
    rfl
  · simp only [generateAlerts, if_neg h0, List.filter_append]
    rw [filter_metric_nil _ (varAlerts_metric _ t) (by decide),
      filter_metric_self (volAlerts_metric _ t),
      filter_metric_nil _ (hhiAlerts_metric _ t) (by decide),
      filter_metric_nil _ (ddAlerts_metric _ t) (by decide)]
    simp only [List.nil_append, List.append_nil]
    rfl
  · simp only [generateAlerts, if_neg h0, List.filter_append]
    rw [filter_metric_nil _ (varAlerts_metric _ t) (by decide),
      filter_metric_nil _ (volAlerts_metric _ t) (by decide),
      filter_metric_self (hhiAlerts_metric _ t),
      filter_metric_nil _ (ddAlerts_metric _ t) (by decide)]
    simp only [List.nil_append, List.append_nil]
    rfl

/-- C5: with a zero total portfolio value, generateAlerts returns the
empty list whatever the metric values are. -/
theorem generateAlerts_zero_total (v : PortfolioValuation) (r : RiskMetrics)
    (t : RiskThresholds) (h : v.totalValueUsd = 0) :
    generateAlerts v r t = [] := by
  simp [generateAlerts, h]

/-- C5 witness: a valuation with total value 0 and wildly extreme
metrics still produces no alerts under the default thresholds. -/
theorem generateAlerts_zero_total_witness :
    generateAlerts { totalValueUsd := 0, holdings := [] }
      { valueAtRisk95 := 1000000, valueAtRisk99 := 2000000,
        volatilityAnnualised := 99, sharpeRatio := -99,
        concentrationHHI := 99, maxDrawdown := 99 }
      DEFAULT_THRESHOLDS = [] :=
  generateAlerts_zero_total _ _ _ rfl

-- ─── Portfolio returns (risk.ts, calculatePortfolioReturns) ────

/-- JS `new Map(holdings.map(h => [h.coinGeckoId, h.weight])).get(id) ?? 0`:
later entries overwrite earlier, missing id gives 0. -/
def weightMapGet (holdings : List HoldingValuation) (id : String) : ℚ :=
  ((holdings.reverse.find? (fun h => h.coinGeckoId == id)).map (fun h => h.weight)).getD 0

/-- JS `Math.min(...xs)` over a non-empty spread list. -/
def minimumD : List ℕ → ℕ
  | [] => 0
  | l :: ls => ls.foldl min l

def calculatePortfolioReturns (historicalPrices : List HistoricalPrices)
    (holdings : List HoldingValuation) : List ℚ :=
  let returnsByToken := historicalPrices.map (fun hp =>
    (hp.coinGeckoId, calculateDailyReturns hp.dailyPrices))
  if returnsByToken.length = 0 then []
  else
    let minLength := minimumD (returnsByToken.map (fun r => r.2.length))
    if minLength = 0 then []
    else
      (List.range minLength).map (fun i =>
        returnsByToken.foldl
          (fun dailyReturn p => dailyReturn + weightMapGet holdings p.1 * p.2.getD i 0) 0)

-- ─── Analysis workflow risk selection (analyse.ts, runAnalysis) ─

/-- Outcome of the step-2 historical batch in runAnalysis: `ok := true`
with the fetched series on success, `ok := false` with empty data when
the batch fails with a PriceFeedError. -/
structure HistResult where
  ok : Bool
  data : List HistoricalPrices
deriving DecidableEq, Repr

/-- The concentration-only metrics synthesized by runAnalysis when the
historical batch is unusable and no cached history exists. -/
def degradedConcentrationRisk (valuation : PortfolioValuation) : RiskMetrics :=
  { valueAtRisk95 := 0
    valueAtRisk99 := 0
    volatilityAnnualised := 0
    sharpeRatio := 0
    concentrationHHI := valuation.holdings.foldl (fun sum h => sum + h.weight ^ 2) 0
    maxDrawdown := 0 }

/-- Step 3 of runAnalysis: choose the RiskMetrics. Live metrics when the
batch succeeded AND returned a non-empty list; otherwise the last cached
result's metrics (history load failures are caught and treated as the
empty history list `cached`); otherwise concentration-only metrics. -/
def selectRiskMetrics (sqrtQ : ℚ → ℚ) (valuation : PortfolioValuation)
    (historicalResult : HistResult) (cached : List AnalysisResult) : RiskMetrics :=
  if historicalResult.ok ∧ 0 < historicalResult.data.length then
    calculateRiskMetrics sqrtQ valuation.totalValueUsd
      (calculatePortfolioReturns historicalResult.data valuation.holdings)
      valuation.holdings
  else
    match cached.getLast? with
    | some last => last.risk
    | none => degradedConcentrationRisk valuation

/-- A successful step-2 batch in runAnalysis: `Effect.all` over
`coinIds.map(id => getHistoricalPrices(id, 30) ...)` yields one series
per coin id, so the data list has exactly one entry per holding. -/
def historicalSuccess (portfolio : Portfolio) (histFn : String → HistoricalPrices) :
    HistResult :=
  { ok := true, data := (portfolio.holdings.map (fun h => h.coinGeckoId)).map histFn }

-- ─── C3: degraded metrics with no history ──────────────────────

/-- C3: when the historical batch failed (ok = false) and the persisted
history is empty, the selected RiskMetrics has var95, var99, annualised
volatility, Sharpe ratio and max drawdown all 0, and concentrationHHI
equal to the sum of squared weights of the current valuation. -/
theorem degraded_metrics_no_history (sqrtQ : ℚ → ℚ) (valuation : PortfolioValuation)
    (hr : HistResult) (hok : hr.ok = false) :
    (selectRiskMetrics sqrtQ valuation hr []).valueAtRisk95 = 0 ∧
    (selectRiskMetrics sqrtQ valuation hr []).valueAtRisk99 = 0 ∧
    (selectRiskMetrics sqrtQ valuation hr []).volatilityAnnualised = 0 ∧
    (selectRiskMetrics sqrtQ valuation hr []).sharpeRatio = 0 ∧
    (selectRiskMetrics sqrtQ valuation hr []).maxDrawdown = 0 ∧
    (selectRiskMetrics sqrtQ valuation hr []).concentrationHHI
      = (valuation.holdings.map (fun h => h.weight ^ 2)).sum := by
  have hsel : selectRiskMetrics sqrtQ valuation hr [] = degradedConcentrationRisk valuation := by
    unfold selectRiskMetrics
    rw [if_neg (by rw [hok]; simp)]
    rfl
  rw [hsel]
  refine ⟨rfl, rfl, rfl, rfl, rfl, ?_⟩
  show valuation.holdings.foldl (fun sum h => sum + h.weight ^ 2) 0 = _
  rw [foldl_add_map (fun h : HoldingValuation => h.weight ^ 2), zero_add]

/-- C3 witness: a concrete two-holding valuation with weights 1/2 each,
a failed batch and empty history — all five statistics are 0 and the
HHI is 1/4 + 1/4. -/
theorem degraded_metrics_no_history_witness :
    (selectRiskMetrics (fun q => q)
        { totalValueUsd := 100,
          holdings := [
            { symbol := "A", coinGeckoId := "a", amount := 1, valueUsd := 50,
              weight := 1/2, price := 50, change24h := 0 },
            { symbol := "B", coinGeckoId := "b", amount := 1, valueUsd := 50,
              weight := 1/2, price := 50, change24h := 0 }] }
        { ok := false, data := [] } []).sharpeRatio = 0 ∧
    (selectRiskMetrics (fun q => q)
        { totalValueUsd := 100,
          holdings := [
            { symbol := "A", coinGeckoId := "a", amount := 1, valueUsd := 50,
              weight := 1/2, price := 50, change24h := 0 },
            { symbol := "B", coinGeckoId := "b", amount := 1, valueUsd := 50,
              weight := 1/2, price := 50, change24h := 0 }] }
        { ok := false, data := [] } []).concentrationHHI
      = (([
            { symbol := "A", coinGeckoId := "a", amount := 1, valueUsd := 50,
              weight := 1/2, price := 50, change24h := 0 },
            { symbol := "B", coinGeckoId := "b", amount := 1, valueUsd := 50,
              weight := 1/2, price := 50, change24h := 0 }] :
          List HoldingValuation).map (fun h => h.weight ^ 2)).sum :=
  ⟨(degraded_metrics_no_history (fun q => q) _ _ rfl).2.2.2.1,
    (degraded_metrics_no_history (fun q => q) _ _ rfl).2.2.2.2.2⟩

-- ─── C10: empty portfolio always takes the degraded path ───────

/-- C10: for a portfolio with no holdings the historical batch succeeds
with an empty list, so runAnalysis's risk selection never calls
calculateRiskMetrics on live data: it yields the last cached result's
metrics when history exists, and otherwise the concentration-only
metrics, which for an empty valuation are all-zero (HHI 0). -/
theorem empty_portfolio_degrades (sqrtQ : ℚ → ℚ) (portfolio : Portfolio)
    (prices : List TokenPrice) (histFn : String → HistoricalPrices)
    (cached : List AnalysisResult) (hempty : portfolio.holdings = []) :
    (historicalSuccess portfolio histFn).ok = true ∧
    (historicalSuccess portfolio histFn).data.length = 0 ∧
    selectRiskMetrics sqrtQ (valuatePortfolio portfolio.holdings prices)
        (historicalSuccess portfolio histFn) cached
      = (match cached.getLast? with
          | some last => last.risk
          | none =>
              { valueAtRisk95 := 0, valueAtRisk99 := 0, volatilityAnnualised := 0,
                sharpeRatio := 0, concentrationHHI := 0, maxDrawdown := 0 }) := by
  have hdata : (historicalSuccess portfolio histFn).data = [] := by
    simp [historicalSuccess, hempty]
  refine ⟨rfl, by rw [hdata]; rfl, ?_⟩
  unfold selectRiskMetrics
  rw [if_neg (by rw [hdata]; simp)]
  cases hc : cached.getLast? with
  | some last => rfl
  | none =>
      show degradedConcentrationRisk (valuatePortfolio portfolio.holdings prices) = _
      rw [hempty]
      rfl

/-- C10 witness: the empty portfolio with no prices, a trivially
succeeding historical fetch and no cached history selects the all-zero
concentration-only metrics. -/
theorem empty_portfolio_degrades_witness :
    (historicalSuccess { name := "empty", holdings := [] } (fun id => ⟨id, []⟩)).data.length
      = 0 ∧
    selectRiskMetrics (fun q => q)
        (valuatePortfolio ({ name := "empty", holdings := [] } : Portfolio).holdings [])
        (historicalSuccess { name := "empty", holdings := [] } (fun id => ⟨id, []⟩)) []
      = { valueAtRisk95 := 0, valueAtRisk99 := 0, volatilityAnnualised := 0,
          sharpeRatio := 0, concentrationHHI := 0, maxDrawdown := 0 } :=
  ⟨(empty_portfolio_degrades (fun q => q) _ [] (fun id => ⟨id, []⟩) [] rfl).2.1,
    (empty_portfolio_degrades (fun q => q) _ [] (fun id => ⟨id, []⟩) [] rfl).2.2⟩

-- ─── PriceFeed failover (src/services/PriceFeed.ts) ────────────

/-- PriceFeedError from PriceFeed.ts (the wrapped `cause` is elided). -/
structure PriceFeedError where
  reason : String
deriving DecidableEq, Repr

/-
Each provider call (coinGeckoGetPrices, coinCapGetPrices, and the
historical variants) performs HTTP I/O and schema validation; any
failure stage — network error, non-2xx status, or schema-validation
failure — is mapped by the source to `PriceFeedError` and success to a
value, so a provider run is abstracted below as an
`Except PriceFeedError α` outcome parameter.
-/

/-- Effect.orElse: run the primary; only when it fails run the
fallback, whose own outcome (success or error) becomes the result. -/
def orElseE {α : Type} (primary : Except PriceFeedError α)
    (fallback : Unit → Except PriceFeedError α) : Except PriceFeedError α :=
  match primary with
  | .ok a => .ok a
  | .error _ => fallback ()

/-- PriceFeedLive.getCurrentPrices: CoinGecko primary with CoinCap
fallback via Effect.orElse; the two providers' I/O outcomes are the
parameters. -/
def getCurrentPricesLive (primaryOutcome fallbackOutcome : Except PriceFeedError (List TokenPrice)) :
    Except PriceFeedError (List TokenPrice) :=
  orElseE primaryOutcome (fun _ => fallbackOutcome)

/-- PriceFeedLive.getHistoricalPrices: same failover shape. -/
def getHistoricalPricesLive (primaryOutcome fallbackOutcome : Except PriceFeedError HistoricalPrices) :
    Except PriceFeedError HistoricalPrices :=
  orElseE primaryOutcome (fun _ => fallbackOutcome)

/-- C8: for both live PriceFeed operations, the primary outcome is used
whenever the primary succeeds; when the primary fails (for any reason
collapsed into its PriceFeedError) and the fallback succeeds, the call
returns the fallback's data and raises no error; when both fail, the
call fails with a PriceFeedError (the fallback's, describing the stage
that failed last). -/
theorem priceFeed_failover
    (pc fc : Except PriceFeedError (List TokenPrice))
    (ph fh : Except PriceFeedError HistoricalPrices) :
    (∀ d, pc = .ok d → getCurrentPricesLive pc fc = .ok d) ∧
    (∀ e d, pc = .error e → fc = .ok d → getCurrentPricesLive pc fc = .ok d) ∧
    (∀ e e', pc = .error e → fc = .error e' → getCurrentPricesLive pc fc = .error e') ∧
    (∀ d, ph = .ok d → getHistoricalPricesLive ph fh = .ok d) ∧
    (∀ e d, ph = .error e → fh = .ok d → getHistoricalPricesLive ph fh = .ok d) ∧
    (∀ e e', ph = .error e → fh = .error e' → getHistoricalPricesLive ph fh = .error e') := by
  refine ⟨?_, ?_, ?_, ?_, ?_, ?_⟩
  · intro d hp; rw [hp]; rfl
  · intro e d hp hf; rw [getCurrentPricesLive, hp, hf]; rfl
  · intro e e' hp hf; rw [getCurrentPricesLive, hp, hf]; rfl
  · intro d hp; rw [hp]; rfl
  · intro e d hp hf; rw [getHistoricalPricesLive, hp, hf]; rfl
  · intro e e' hp hf; rw [getHistoricalPricesLive, hp, hf]; rfl

/-- C8 witness: with a failing primary (rate-limited CoinGecko) and a
succeeding CoinCap fallback, getCurrentPrices returns the fallback's
quotes without error; with both failing, the result is the fallback's
PriceFeedError. -/
theorem priceFeed_failover_witness :
    getCurrentPricesLive (.error ⟨"[CoinGecko] Failed to fetch current prices"⟩)
        (.ok [⟨"bitcoin", 42000, 0⟩])
      = .ok [⟨"bitcoin", 42000, 0⟩] ∧
    getHistoricalPricesLive (.error ⟨"[CoinGecko] Failed historical for bitcoin"⟩)
        (.error ⟨"[CoinCap] Failed historical for bitcoin"⟩)
      = .error ⟨"[CoinCap] Failed historical for bitcoin"⟩ :=
  ⟨(priceFeed_failover _ (.ok [⟨"bitcoin", 42000, 0⟩])
      (.error ⟨"[CoinGecko] Failed historical for bitcoin"⟩)
      (.error ⟨"[CoinCap] Failed historical for bitcoin"⟩)).2.1 _ _ rfl rfl,
    (priceFeed_failover (.error ⟨"[CoinGecko] Failed to fetch current prices"⟩)
      (.ok [⟨"bitcoin", 42000, 0⟩]) _ _).2.2.2.2.2 _ _ rfl rfl⟩

end DefiRisk
